import Mathlib

/-!
# Verification of the Phrase-and-Clause quiz application (src/index.tsx)

A shallow embedding of the application's logic in Lean 4.

Modelling conventions:
* A `Question` record mirrors the `Question` interface (sentence, options,
  correct_answer).
* JavaScript `null` slots in the user-answers array become `Option String`
  (`none` = unanswered).
* The score accumulator in the source adds `1` and `-0.25`; every partial sum
  is an integer multiple of `1/4` of small magnitude, hence exactly
  representable in an IEEE double, so modelling the accumulator with `ℚ`
  (where `0.25 = 1/4`) is exact.
* `Math.random()`-driven code is parameterised by an explicit oracle
  `rand : Nat → Bool` giving the outcome of each comparator call
  (`Math.random() - 0.5 < 0`).  `Array.prototype.sort` with an arbitrary
  comparator is engine-defined but always a comparison sort, i.e. it
  rearranges the elements according to the comparator's outcomes; it is
  embedded as a comparison sort driven by the oracle.
* The external generative-AI call, file reading and JSON parsing are opaque:
  each generation handler takes the outcome of its `await`/`parse` pipeline
  as an `Except String _` argument and models the `try`/`catch` around it.
* Handlers that call `alert(...)` return the alert text as an
  `Option String` alongside the new state, so that "a user-visible alert is
  surfaced" is an inspectable fact.
-/

namespace PhraseClause

/-- The `Question` interface of src/index.tsx. -/
structure Question where
  sentence : String
  options : List String
  correct_answer : String
deriving DecidableEq

/-- The `QuizState` union type of src/index.tsx. -/
inductive QuizState where
  | idle | loading | active | finished | story
deriving DecidableEq

/-!
## shuffleArray

Source: `const shuffleArray = <T,>(array: T[]): T[] => [...array].sort(() => Math.random() - 0.5)`.

The comparator ignores its arguments and returns a random sign, so the sort
is a comparison sort whose decisions are a stream of coin flips.  `insertR`
and `sortR` run an insertion sort in which comparison number `n` returns
`rand n`; the pair's second component threads the count of comparisons made
(the number of `Math.random()` calls consumed).
-/

/-- One insertion step of the comparator-driven sort: `rand n` is the outcome
of the `n`-th comparator call (`true` = "place the new element in front"). -/
def insertR (rand : Nat → Bool) : Nat → α → List α → List α × Nat
  | n, a, [] => ([a], n)
  | n, a, b :: bs =>
    if rand n then (a :: b :: bs, n + 1)
    else
      let r := insertR rand (n + 1) a bs
      (b :: r.1, r.2)

/-- Comparator-driven insertion sort, threading the comparison counter. -/
def sortR (rand : Nat → Bool) : Nat → List α → List α × Nat
  | n, [] => ([], n)
  | n, a :: as =>
    let r := sortR rand n as
    insertR rand r.2 a r.1

/-- `shuffleArray` of src/index.tsx: copy the array and sort the copy with a
random comparator.  The input list is a value, the copy is the sort's input. -/
def shuffleArray (rand : Nat → Bool) (l : List α) : List α :=
  (sortR rand 0 l).1

theorem insertR_perm (rand : Nat → Bool) (a : α) :
    ∀ (l : List α) (n : Nat), (insertR rand n a l).1.Perm (a :: l) := by
  intro l
  induction l with
  | nil => intro n; simp [insertR]
  | cons b bs ih =>
    intro n
    simp only [insertR]
    split
    · exact List.Perm.refl _
    · exact ((ih (n + 1)).cons b).trans (List.Perm.swap a b bs)

theorem sortR_perm (rand : Nat → Bool) :
    ∀ (l : List α) (n : Nat), (sortR rand n l).1.Perm l := by
  intro l
  induction l with
  | nil => intro n; simp [sortR]
  | cons a as ih =>
    intro n
    simp only [sortR]
    exact (insertR_perm rand a _ _).trans ((ih n).cons a)

/-- Whatever the random comparator does, the sorted copy is a permutation of
the input. -/
theorem shuffleArray_perm (rand : Nat → Bool) (l : List α) :
    (shuffleArray rand l).Perm l :=
  sortR_perm rand l 0

/-!
## score

Source (src/index.tsx:473-481):
```
const score = useMemo(() => {
  return userAnswers.reduce((total, answer, index) => {
    if (answer === null) return total;
    if (answer === questions[index]?.correct_answer) {
      return total + 1;
    }
    return total - 0.25;
  }, 0);
}, [userAnswers, questions]);
```
`reduce` is a left fold carrying the running total and the index;
`questions[index]?.correct_answer` is `undefined` past the end of
`questions`, and a string never equals `undefined`.
-/

/-- The body of the `reduce` in `score`, folding from slot `idx` with the
running total `total`. -/
def scoreFrom (questions : List Question) : Nat → Rat → List (Option String) → Rat
  | _, total, [] => total
  | idx, total, answer :: rest =>
    let total' :=
      match answer with
      | none => total
      | some a =>
        if (questions.get? idx).map Question.correct_answer = some a then total + 1
        else total - 1/4
    scoreFrom questions (idx + 1) total' rest

/-- The derived `score` of src/index.tsx (`0.25 = 1/4` exactly, in doubles as
in `ℚ`). -/
def score (questions : List Question) (userAnswers : List (Option String)) : Rat :=
  scoreFrom questions 0 0 userAnswers

/-- The number of answered slots whose recorded answer equals the paired
question's correct answer — the `k` of the spec's scoring formula. -/
def countCorrect : List Question → List (Option String) → Nat
  | q :: qs, some a :: rest =>
    (if a = q.correct_answer then 1 else 0) + countCorrect qs rest
  | _ :: qs, none :: rest => countCorrect qs rest
  | [], _ => 0
  | _ :: _, [] => 0

/-- The number of answered slots whose recorded answer differs from the paired
question's correct answer — the `m` of the spec's scoring formula. -/
def countIncorrect : List Question → List (Option String) → Nat
  | q :: qs, some a :: rest =>
    (if a = q.correct_answer then 0 else 1) + countIncorrect qs rest
  | _ :: qs, none :: rest => countIncorrect qs rest
  | [], _ => 0
  | _ :: _, [] => 0

theorem countCorrect_nil (qs : List Question) : countCorrect qs [] = 0 := by
  cases qs <;> rfl

theorem countIncorrect_nil (qs : List Question) : countIncorrect qs [] = 0 := by
  cases qs <;> rfl

theorem scoreFrom_eq (qs : List Question) :
    ∀ (answers : List (Option String)) (idx : Nat) (total : Rat),
      idx + answers.length ≤ qs.length →
      scoreFrom qs idx total answers =
        total + countCorrect (qs.drop idx) answers
          - (countIncorrect (qs.drop idx) answers : Rat) * (1/4) := by
  intro answers
  induction answers with
  | nil =>
    intro idx total _
    simp [scoreFrom, countCorrect_nil, countIncorrect_nil]
  | cons ans rest ih =>
    intro idx total h
    have hlen : idx + (rest.length + 1) ≤ qs.length := by simpa using h
    have hidx : idx < qs.length := by omega
    have hdrop : qs.drop idx = qs[idx] :: qs.drop (idx + 1) :=
      List.drop_eq_getElem_cons hidx
    have hget : qs.get? idx = some qs[idx] := by
      rw [List.get?_eq_getElem?]
      exact List.getElem?_eq_getElem hidx
    have hrest : idx + 1 + rest.length ≤ qs.length := by omega
    cases ans with
    | none =>
      simp only [scoreFrom, hdrop, countCorrect, countIncorrect]
      exact ih (idx + 1) total hrest
    | some a =>
      simp only [scoreFrom, hget, Option.map_some']
      rw [hdrop]
      simp only [countCorrect, countIncorrect]
      by_cases hc : a = qs[idx].correct_answer
      · rw [if_pos (congrArg some hc.symm), if_pos hc, if_pos hc,
          ih (idx + 1) (total + 1) hrest]
        push_cast
        ring
      · rw [if_neg (fun hco => hc (Option.some.inj hco).symm), if_neg hc, if_neg hc,
          ih (idx + 1) (total - 1/4) hrest]
        push_cast
        ring

/-- **C1**: with an answers array of the questions' length, the score computed
by the `reduce` in src/index.tsx:473-481 equals `k*1 - m*0.25` where `k` is
the number of answered slots matching the question's correct answer and `m`
the number of answered slots that do not match; unanswered (`null`) slots
contribute nothing. -/
theorem score_matches_spec (qs : List Question) (answers : List (Option String))
    (h : answers.length = qs.length) :
    score qs answers =
      (countCorrect qs answers : Rat) * 1 - (countIncorrect qs answers : Rat) * (1/4) := by
  rw [score, scoreFrom_eq qs answers 0 0 (by omega)]
  simp only [List.drop_zero]
  ring

/-- The C1 equality instantiated on a three-question session with one correct
answer, one incorrect answer and one unanswered slot. -/
theorem score_matches_spec_witness :
    ([some "at", some "of", none] : List (Option String)).length =
      [Question.mk "s1" ["at", "of", "in", "on"] "at",
       Question.mk "s2" ["at", "of", "in", "on"] "in",
       Question.mk "s3" ["at", "of", "in", "on"] "on"].length ∧
    score
      [Question.mk "s1" ["at", "of", "in", "on"] "at",
       Question.mk "s2" ["at", "of", "in", "on"] "in",
       Question.mk "s3" ["at", "of", "in", "on"] "on"]
      [some "at", some "of", none] =
      (countCorrect
        [Question.mk "s1" ["at", "of", "in", "on"] "at",
         Question.mk "s2" ["at", "of", "in", "on"] "in",
         Question.mk "s3" ["at", "of", "in", "on"] "on"]
        [some "at", some "of", none] : Rat) * 1 -
      (countIncorrect
        [Question.mk "s1" ["at", "of", "in", "on"] "at",
         Question.mk "s2" ["at", "of", "in", "on"] "in",
         Question.mk "s3" ["at", "of", "in", "on"] "on"]
        [some "at", some "of", none] : Rat) * (1/4) :=
  ⟨by decide, score_matches_spec _ _ (by decide)⟩

/-!
## The App component's state and event handlers

The `useState` cells of `App` (src/index.tsx:78-91) that the quiz logic reads
or writes.  `loadingMessage` (animated feedback text driven by an interval
while loading) and `theme` (persisted presentation preference) touch no quiz
logic and are not modelled.
-/

/-- A selected browser `File`, as far as `handleFileChange` inspects it. -/
structure JsFile where
  name : String
  type : String
deriving DecidableEq

/-- The modelled `useState` cells of `App`. -/
structure AppState where
  quizState : QuizState
  questions : List Question
  currentQuestionIndex : Nat
  userAnswers : List (Option String)
  showSolutions : Bool
  file : Option JsFile
  storyContent : String
  showPrepositionHighlighting : Bool
deriving DecidableEq

/-- The initial values of the modelled `useState` hooks. -/
def initialState : AppState :=
  { quizState := .idle, questions := [], currentQuestionIndex := 0,
    userAnswers := [], showSolutions := false, file := none,
    storyContent := "", showPrepositionHighlighting := true }

/-- `xs` begins with the pattern `pre`, character by character. -/
def startsWithL : List Char → List Char → Bool
  | [], _ => true
  | _ :: _, [] => false
  | p :: ps, c :: cs => p == c && startsWithL ps cs

/-- JavaScript `s.endsWith(suffix)`, over the strings' characters. -/
def endsWithL (s suffix : String) : Bool :=
  startsWithL suffix.data.reverse s.data.reverse

/-- `handleFileChange` (src/index.tsx:131-142).  `selected` is
`event.target.files?.[0]`; the returned `Option String` is the `alert` text,
if one was raised.  Note the rejection branch stores `null` into `file`. -/
def handleFileChange (selected : Option JsFile) (s : AppState) :
    AppState × Option String :=
  match selected with
  | none => (s, none)
  | some f =>
    if f.type == "text/markdown" || endsWithL f.name ".md" then
      ({ s with file := some f }, none)
    else
      ({ s with file := none }, some "Please upload a valid markdown (.md) file.")

/-- The `parsedQuestions.map(q => ({ ...q, options: shuffleArray(q.options) }))`
step shared by all four quiz-generation handlers.  Each call to `shuffleArray`
consumes fresh `Math.random()` outcomes, so the oracle is indexed by the
question's position. -/
def shuffleQuestions (rand : Nat → Nat → Bool) : Nat → List Question → List Question
  | _, [] => []
  | i, q :: qs =>
    { q with options := shuffleArray (rand i) q.options } ::
      shuffleQuestions rand (i + 1) qs

/-- `handleGenerateQuiz` (src/index.tsx:162-232).  The outcome of the awaited
`readFileContent` / `generateContent` / `JSON.parse` pipeline is passed in as
`result` (`.error` = any exception reaching the `catch`); the intermediate
`loading` render is not a separate step.  Returns the new state and the
`alert` text, if one was raised. -/
def handleGenerateQuiz (rand : Nat → Nat → Bool)
    (result : Except String (List Question)) (s : AppState) :
    AppState × Option String :=
  match s.file with
  | none => (s, some "Please select a file first.")
  | some _ =>
    match result with
    | .ok parsed =>
      let qs := shuffleQuestions rand 0 parsed
      ({ s with questions := qs,
                userAnswers := List.replicate qs.length none,
                currentQuestionIndex := 0,
                quizState := .active }, none)
    | .error e =>
      ({ s with quizState := .idle },
        some ("Sorry, there was an error generating the quiz. " ++ e))

/-- `handleGeneratePrepositionQuiz`, `handleGenerateFixedPrepositionQuiz` and
`handleGenerateSentenceTypeQuiz` (src/index.tsx:234-415) share this body —
only the prompt and schema strings sent to the external service differ, and
none of them requires a selected file. -/
def handleGeneratePresetQuiz (rand : Nat → Nat → Bool)
    (result : Except String (List Question)) (s : AppState) :
    AppState × Option String :=
  match result with
  | .ok parsed =>
    let qs := shuffleQuestions rand 0 parsed
    ({ s with questions := qs,
              userAnswers := List.replicate qs.length none,
              currentQuestionIndex := 0,
              quizState := .active }, none)
  | .error e =>
    ({ s with quizState := .idle },
      some ("Sorry, there was an error generating the quiz. " ++ e))

/-- `handleGenerateStory` (src/index.tsx:417-442), with the awaited request's
outcome passed in as `result`. -/
def handleGenerateStory (result : Except String String) (s : AppState) :
    AppState × Option String :=
  match result with
  | .ok text => ({ s with storyContent := text, quizState := .story }, none)
  | .error e =>
    ({ s with quizState := .idle },
      some ("Sorry, there was an error generating the story. " ++ e))

/-- JavaScript array assignment `arr[i] = v` (on the copied answers array):
within bounds it overwrites slot `i`; past the end it pads with holes and
appends (holes are skipped by `reduce`, like `null` slots, hence `none`). -/
def jsArraySet (l : List (Option String)) (i : Nat) (v : String) :
    List (Option String) :=
  if i < l.length then l.set i (some v)
  else l ++ List.replicate (i - l.length) none ++ [some v]

/-- The synchronous part of `handleAnswerSelect` (src/index.tsx:445-447):
copy the answers array, overwrite the slot at the current index, store it. -/
def recordAnswer (answer : String) (s : AppState) : AppState :=
  { s with userAnswers := jsArraySet s.userAnswers s.currentQuestionIndex answer }

/-- The `setTimeout` callback of `handleAnswerSelect` (src/index.tsx:449-455).
The 300 ms delay only sequences it after the recording; the captured index and
questions are those at call time, which `recordAnswer` does not change.  The
comparison `currentQuestionIndex < questions.length - 1` is JavaScript number
arithmetic, hence over `Int` (for an empty list, `0 < -1` is false). -/
def advanceOrFinish (s : AppState) : AppState :=
  if (s.currentQuestionIndex : Int) < (s.questions.length : Int) - 1 then
    { s with currentQuestionIndex := s.currentQuestionIndex + 1 }
  else
    { s with quizState := .finished }

/-- `handleAnswerSelect` (src/index.tsx:444-456): record the answer, then
advance or finish. -/
def handleAnswerSelect (answer : String) (s : AppState) : AppState :=
  advanceOrFinish (recordAnswer answer s)

/-- `handleStopQuiz` (src/index.tsx:458-460). -/
def handleStopQuiz (s : AppState) : AppState :=
  { s with quizState := .finished }

/-- `handleRestart` (src/index.tsx:462-471): reset every modelled cell. -/
def handleRestart (s : AppState) : AppState :=
  { s with quizState := .idle, questions := [], userAnswers := [],
           currentQuestionIndex := 0, showSolutions := false, file := none,
           storyContent := "", showPrepositionHighlighting := true }

/-- The inline `onClick={() => setShowSolutions(!showSolutions)}` of the
finished view. -/
def toggleSolutions (s : AppState) : AppState :=
  { s with showSolutions := !s.showSolutions }

/-- The inline `onClick={() => setShowPrepositionHighlighting(...)}` of the
story view. -/
def toggleHighlighting (s : AppState) : AppState :=
  { s with showPrepositionHighlighting := !s.showPrepositionHighlighting }

/-!
## The event system

`Step` captures one user-interface event together with its handler, guarded by
the availability of the triggering control in the rendered view
(src/index.tsx:483-609): the file input and the generation buttons render only
in the idle view, an option button only in the active view and only for the
current question, Stop only while active, Restart and the two toggles only in
the finished/story views.
-/

inductive Step : AppState → AppState → Prop
  | fileChange (s : AppState) (sel : Option JsFile) (h : s.quizState = .idle) :
      Step s (handleFileChange sel s).1
  | genQuiz (s : AppState) (rand : Nat → Nat → Bool)
      (result : Except String (List Question)) (h : s.quizState = .idle) :
      Step s (handleGenerateQuiz rand result s).1
  | genPreset (s : AppState) (rand : Nat → Nat → Bool)
      (result : Except String (List Question)) (h : s.quizState = .idle) :
      Step s (handleGeneratePresetQuiz rand result s).1
  | genStory (s : AppState) (result : Except String String)
      (h : s.quizState = .idle) :
      Step s (handleGenerateStory result s).1
  | answerSelect (s : AppState) (a : String) (h : s.quizState = .active)
      (hq : s.currentQuestionIndex < s.questions.length) :
      Step s (handleAnswerSelect a s)
  | stop (s : AppState) (h : s.quizState = .active) :
      Step s (handleStopQuiz s)
  | restart (s : AppState)
      (h : s.quizState = .finished ∨ s.quizState = .story) :
      Step s (handleRestart s)
  | solutions (s : AppState) (h : s.quizState = .finished) :
      Step s (toggleSolutions s)
  | highlighting (s : AppState) (h : s.quizState = .story) :
      Step s (toggleHighlighting s)

/-- States reached by a successful quiz generation (from the idle view, with a
file selected where required), followed by any sequence of events. -/
inductive Reachable : AppState → Prop
  | genQuizOk (s : AppState) (rand : Nat → Nat → Bool) (parsed : List Question)
      (h : s.quizState = .idle) (hf : s.file.isSome) :
      Reachable (handleGenerateQuiz rand (.ok parsed) s).1
  | genPresetOk (s : AppState) (rand : Nat → Nat → Bool) (parsed : List Question)
      (h : s.quizState = .idle) :
      Reachable (handleGeneratePresetQuiz rand (.ok parsed) s).1
  | step (s s' : AppState) (hs : Reachable s) (h : Step s s') : Reachable s'

theorem shuffleQuestions_length (rand : Nat → Nat → Bool) :
    ∀ (i : Nat) (qs : List Question),
      (shuffleQuestions rand i qs).length = qs.length := by
  intro i qs
  induction qs generalizing i with
  | nil => rfl
  | cons q qs ih => simp [shuffleQuestions, ih]

theorem shuffleQuestions_getElem? (rand : Nat → Nat → Bool) :
    ∀ (qs : List Question) (i j : Nat),
      (shuffleQuestions rand i qs)[j]? =
        qs[j]?.map
          (fun q => { q with options := shuffleArray (rand (i + j)) q.options }) := by
  intro qs
  induction qs with
  | nil => intro i j; simp [shuffleQuestions]
  | cons q qs ih =>
    intro i j
    cases j with
    | zero => simp [shuffleQuestions]
    | succ j =>
      have harg : i + 1 + j = i + (j + 1) := by omega
      simp only [shuffleQuestions, List.getElem?_cons_succ, ih (i + 1) j, harg]

theorem length_jsArraySet_of_lt (l : List (Option String)) (i : Nat) (v : String)
    (h : i < l.length) : (jsArraySet l i v).length = l.length := by
  simp [jsArraySet, if_pos h]

/-- **C2**: after a successful quiz generation, every stored question keeps
its sentence and correct answer, and its options list is a permutation of the
parsed record's options list; in particular a correct answer that was among
the original options is still among the shuffled ones. -/
theorem generateQuiz_options_perm (rand : Nat → Nat → Bool)
    (parsed : List Question) (s : AppState) (hf : s.file.isSome)
    (j : Nat) (hj : j < parsed.length) :
    ∃ q₀ q₁,
      parsed[j]? = some q₀ ∧
      (handleGenerateQuiz rand (.ok parsed) s).1.questions[j]? = some q₁ ∧
      q₁.options.Perm q₀.options ∧
      q₁.sentence = q₀.sentence ∧
      q₁.correct_answer = q₀.correct_answer ∧
      (q₀.correct_answer ∈ q₀.options → q₁.correct_answer ∈ q₁.options) := by
  obtain ⟨f, hfile⟩ := Option.isSome_iff_exists.mp hf
  have hq : (handleGenerateQuiz rand (.ok parsed) s).1.questions =
      shuffleQuestions rand 0 parsed := by
    simp [handleGenerateQuiz, hfile]
  have hget : parsed[j]? = some parsed[j] := List.getElem?_eq_getElem hj
  refine ⟨parsed[j], { parsed[j] with
      options := shuffleArray (rand j) parsed[j].options }, hget, ?_, ?_, rfl, rfl, ?_⟩
  · rw [hq, shuffleQuestions_getElem? rand parsed 0 j, hget]
    simp
  · exact shuffleArray_perm (rand j) parsed[j].options
  · intro hmem
    exact ((shuffleArray_perm (rand j) parsed[j].options).mem_iff).mpr hmem

/-- The C2 statement instantiated on a one-question parse result whose correct
answer is among the options. -/
theorem generateQuiz_options_perm_witness :
    ({ initialState with file := some ⟨"notes.md", "text/markdown"⟩ } :
        AppState).file.isSome ∧
    0 < ([Question.mk "s" ["at", "of", "in", "on"] "at"] : List Question).length ∧
    ∃ q₀ q₁,
      ([Question.mk "s" ["at", "of", "in", "on"] "at"] : List Question)[0]? =
        some q₀ ∧
      (handleGenerateQuiz (fun _ _ => true)
          (.ok [Question.mk "s" ["at", "of", "in", "on"] "at"])
          { initialState with
            file := some ⟨"notes.md", "text/markdown"⟩ }).1.questions[0]? =
        some q₁ ∧
      q₁.options.Perm q₀.options ∧
      q₁.sentence = q₀.sentence ∧
      q₁.correct_answer = q₀.correct_answer ∧
      (q₀.correct_answer ∈ q₀.options → q₁.correct_answer ∈ q₁.options) :=
  ⟨by decide, by decide,
    generateQuiz_options_perm (fun _ _ => true)
      [Question.mk "s" ["at", "of", "in", "on"] "at"]
      { initialState with file := some ⟨"notes.md", "text/markdown"⟩ }
      (by decide) 0 (by decide)⟩

/-- **C3**: in every state reachable after a successful quiz generation, the
user-answers array has exactly the length of the questions array, and every
subsequent event (file selection, generation, answer selection, stop, restart,
toggles) preserves this. -/
theorem reachable_answers_length (s : AppState) (h : Reachable s) :
    s.userAnswers.length = s.questions.length := by
  induction h with
  | genQuizOk s rand parsed hidle hf =>
    obtain ⟨f, hfile⟩ := Option.isSome_iff_exists.mp hf
    simp [handleGenerateQuiz, hfile]
  | genPresetOk s rand parsed hidle =>
    simp [handleGeneratePresetQuiz]
  | step t t' ht hstep ih =>
    cases hstep with
    | fileChange sel hu =>
      cases sel with
      | none => simpa [handleFileChange] using ih
      | some f =>
        simp only [handleFileChange]
        split <;> simpa using ih
    | genQuiz rand result hu =>
      cases hfile : t.file with
      | none => simpa [handleGenerateQuiz, hfile] using ih
      | some f =>
        cases result with
        | ok parsed => simp [handleGenerateQuiz, hfile]
        | error e => simpa [handleGenerateQuiz, hfile] using ih
    | genPreset rand result hu =>
      cases result with
      | ok parsed => simp [handleGeneratePresetQuiz]
      | error e => simpa [handleGeneratePresetQuiz] using ih
    | genStory result hu =>
      cases result with
      | ok text => simpa [handleGenerateStory] using ih
      | error e => simpa [handleGenerateStory] using ih
    | answerSelect a hu hq =>
      have hql : t.currentQuestionIndex < t.userAnswers.length := by
        rw [ih]; exact hq
      simp only [handleAnswerSelect, advanceOrFinish, recordAnswer]
      split <;> simp [length_jsArraySet_of_lt _ _ _ hql, ih]
    | stop hu => simpa [handleStopQuiz] using ih
    | restart hu => simp [handleRestart]
    | solutions hu => simpa [toggleSolutions] using ih
    | highlighting hu => simpa [toggleHighlighting] using ih

/-- The C3 invariant checked on a concrete reachable state: a fresh one-question
preset quiz. -/
theorem reachable_answers_length_witness :
    (handleGeneratePresetQuiz (fun _ _ => true)
        (.ok [Question.mk "s" ["a", "b", "c", "d"] "a"])
        initialState).1.userAnswers.length =
      (handleGeneratePresetQuiz (fun _ _ => true)
        (.ok [Question.mk "s" ["a", "b", "c", "d"] "a"])
        initialState).1.questions.length :=
  reachable_answers_length _
    (Reachable.genPresetOk initialState (fun _ _ => true)
      [Question.mk "s" ["a", "b", "c", "d"] "a"] rfl)

/-- **C4**: in an active session, selecting an answer with the current index at
the last question finishes the quiz; selecting one at any earlier index
advances the index by exactly one and leaves the quiz active. -/
theorem answerSelect_advance_or_finish (s : AppState) (a : String)
    (hact : s.quizState = QuizState.active) :
    (s.currentQuestionIndex = s.questions.length - 1 →
      (handleAnswerSelect a s).quizState = QuizState.finished) ∧
    (s.currentQuestionIndex < s.questions.length - 1 →
      (handleAnswerSelect a s).quizState = QuizState.active ∧
      (handleAnswerSelect a s).currentQuestionIndex =
        s.currentQuestionIndex + 1) := by
  constructor
  · intro hlast
    have hcond :
        ¬ ((s.currentQuestionIndex : Int) < (s.questions.length : Int) - 1) := by
      omega
    simp [handleAnswerSelect, advanceOrFinish, recordAnswer, hcond]
  · intro hlt
    have hcond :
        (s.currentQuestionIndex : Int) < (s.questions.length : Int) - 1 := by
      omega
    simp [handleAnswerSelect, advanceOrFinish, recordAnswer, hcond, hact]

/-- A two-question active session used to exercise the answer-selection
theorems on concrete input. -/
def demoActiveState : AppState :=
  { quizState := .active,
    questions := [Question.mk "s1" ["a", "b", "c", "d"] "a",
                  Question.mk "s2" ["a", "b", "c", "d"] "b"],
    currentQuestionIndex := 0,
    userAnswers := [none, none],
    showSolutions := false, file := none, storyContent := "",
    showPrepositionHighlighting := true }

/-- The C4 statement exercised on `demoActiveState` (index 0 of 2): the answer
advances to index 1 and the quiz stays active. -/
theorem answerSelect_advance_or_finish_witness :
    demoActiveState.quizState = QuizState.active ∧
    demoActiveState.currentQuestionIndex < demoActiveState.questions.length - 1 ∧
    (handleAnswerSelect "b" demoActiveState).quizState = QuizState.active ∧
    (handleAnswerSelect "b" demoActiveState).currentQuestionIndex =
      demoActiveState.currentQuestionIndex + 1 :=
  ⟨rfl, by decide,
    ((answerSelect_advance_or_finish demoActiveState "b" rfl).2 (by decide)).1,
    ((answerSelect_advance_or_finish demoActiveState "b" rfl).2 (by decide)).2⟩

/-- An idle state with a markdown file selected, used to exercise the
generation handlers on concrete input. -/
def demoIdleState : AppState :=
  { initialState with file := some ⟨"notes.md", "text/markdown"⟩ }

/-- **C5**: when the awaited pipeline of `handleGenerateQuiz` (file read,
request, JSON parse) or of `handleGenerateStory` fails, the handler raises an
alert and sets the state to idle, leaving the questions list, the answers list
and the current index exactly as they were. -/
theorem generate_failure_resets (rand : Nat → Nat → Bool) (s : AppState)
    (e e' : String) (hf : s.file.isSome) :
    ((handleGenerateQuiz rand (.error e) s).1.quizState = QuizState.idle ∧
     (handleGenerateQuiz rand (.error e) s).1.questions = s.questions ∧
     (handleGenerateQuiz rand (.error e) s).1.userAnswers = s.userAnswers ∧
     (handleGenerateQuiz rand (.error e) s).1.currentQuestionIndex =
       s.currentQuestionIndex ∧
     (handleGenerateQuiz rand (.error e) s).2.isSome) ∧
    ((handleGeneratePresetQuiz rand (.error e) s).1.quizState = QuizState.idle ∧
     (handleGeneratePresetQuiz rand (.error e) s).1.questions = s.questions ∧
     (handleGeneratePresetQuiz rand (.error e) s).1.userAnswers = s.userAnswers ∧
     (handleGeneratePresetQuiz rand (.error e) s).1.currentQuestionIndex =
       s.currentQuestionIndex ∧
     (handleGeneratePresetQuiz rand (.error e) s).2.isSome) ∧
    ((handleGenerateStory (.error e') s).1.quizState = QuizState.idle ∧
     (handleGenerateStory (.error e') s).1.questions = s.questions ∧
     (handleGenerateStory (.error e') s).1.userAnswers = s.userAnswers ∧
     (handleGenerateStory (.error e') s).1.currentQuestionIndex =
       s.currentQuestionIndex ∧
     (handleGenerateStory (.error e') s).2.isSome) := by
  obtain ⟨f, hfile⟩ := Option.isSome_iff_exists.mp hf
  simp [handleGenerateQuiz, handleGeneratePresetQuiz, handleGenerateStory, hfile]

/-- The C5 statement exercised on `demoIdleState` with a failing request. -/
theorem generate_failure_resets_witness :
    demoIdleState.file.isSome ∧
    ((handleGenerateQuiz (fun _ _ => true) (.error "network error")
        demoIdleState).1.quizState = QuizState.idle ∧
     (handleGenerateQuiz (fun _ _ => true) (.error "network error")
        demoIdleState).1.questions = demoIdleState.questions ∧
     (handleGenerateQuiz (fun _ _ => true) (.error "network error")
        demoIdleState).1.userAnswers = demoIdleState.userAnswers ∧
     (handleGenerateQuiz (fun _ _ => true) (.error "network error")
        demoIdleState).1.currentQuestionIndex =
       demoIdleState.currentQuestionIndex ∧
     (handleGenerateQuiz (fun _ _ => true) (.error "network error")
        demoIdleState).2.isSome) ∧
    ((handleGeneratePresetQuiz (fun _ _ => true) (.error "network error")
        demoIdleState).1.quizState = QuizState.idle ∧
     (handleGeneratePresetQuiz (fun _ _ => true) (.error "network error")
        demoIdleState).1.questions = demoIdleState.questions ∧
     (handleGeneratePresetQuiz (fun _ _ => true) (.error "network error")
        demoIdleState).1.userAnswers = demoIdleState.userAnswers ∧
     (handleGeneratePresetQuiz (fun _ _ => true) (.error "network error")
        demoIdleState).1.currentQuestionIndex =
       demoIdleState.currentQuestionIndex ∧
     (handleGeneratePresetQuiz (fun _ _ => true) (.error "network error")
        demoIdleState).2.isSome) ∧
    ((handleGenerateStory (.error "network error")
        demoIdleState).1.quizState = QuizState.idle ∧
     (handleGenerateStory (.error "network error")
        demoIdleState).1.questions = demoIdleState.questions ∧
     (handleGenerateStory (.error "network error")
        demoIdleState).1.userAnswers = demoIdleState.userAnswers ∧
     (handleGenerateStory (.error "network error")
        demoIdleState).1.currentQuestionIndex =
       demoIdleState.currentQuestionIndex ∧
     (handleGenerateStory (.error "network error")
        demoIdleState).2.isSome) :=
  ⟨by decide,
    generate_failure_resets (fun _ _ => true) demoIdleState
      "network error" "network error" (by decide)⟩

/-!
## The copy-before-sort frame property

`shuffleArray` spreads the input into a fresh array and sorts the copy in
place.  To state that the input array object is not mutated, arrays are given
identities: a heap is a list of arrays and a reference is an index into it.
-/

/-- A JavaScript heap of string arrays: entry `r` is the array referenced by
`r`. -/
abbrev Heap := List (List String)

/-- `shuffleArray` at the reference level: `[...array]` allocates a fresh
array with the same elements (here: appended at the next free reference),
`.sort` permutes the fresh array in place, and the fresh reference is
returned. -/
def shuffleArrayRef (rand : Nat → Bool) (h : Heap) (ref : Nat) : Heap × Nat :=
  (h ++ [shuffleArray rand (h.getD ref [])], h.length)

/-- **C9**: `shuffleArray` copies before sorting — the returned reference is
fresh (distinct from every existing reference), every array already on the
heap, in particular the input options array, is unchanged, and the fresh array
holds a permutation of the input's elements. -/
theorem shuffleArrayRef_frame (rand : Nat → Bool) (h : Heap) (ref r : Nat)
    (hr : r < h.length) :
    (shuffleArrayRef rand h ref).2 ≠ r ∧
    (shuffleArrayRef rand h ref).1[r]? = h[r]? ∧
    (shuffleArrayRef rand h ref).1[(shuffleArrayRef rand h ref).2]? =
      some (shuffleArray rand (h.getD ref [])) ∧
    (shuffleArray rand (h.getD ref [])).Perm (h.getD ref []) := by
  refine ⟨?_, ?_, ?_, shuffleArray_perm _ _⟩
  · simp only [shuffleArrayRef]
    omega
  · simp only [shuffleArrayRef]
    exact List.getElem?_append_left hr
  · simp only [shuffleArrayRef]
    exact List.getElem?_concat_length _ _

/-- The C9 statement exercised on a one-array heap. -/
theorem shuffleArrayRef_frame_witness :
    0 < ([["with", "of", "by", "at"]] : Heap).length ∧
    (shuffleArrayRef (fun _ => true) [["with", "of", "by", "at"]] 0).2 ≠ 0 ∧
    (shuffleArrayRef (fun _ => true) [["with", "of", "by", "at"]] 0).1[0]? =
      ([["with", "of", "by", "at"]] : Heap)[0]? ∧
    (shuffleArrayRef (fun _ => true) [["with", "of", "by", "at"]]
        0).1[(shuffleArrayRef (fun _ => true) [["with", "of", "by", "at"]] 0).2]? =
      some (shuffleArray (fun _ => true)
        (([["with", "of", "by", "at"]] : Heap).getD 0 [])) ∧
    (shuffleArray (fun _ => true)
        (([["with", "of", "by", "at"]] : Heap).getD 0 [])).Perm
      (([["with", "of", "by", "at"]] : Heap).getD 0 []) :=
  ⟨by decide, shuffleArrayRef_frame (fun _ => true) [["with", "of", "by", "at"]] 0 0
    (by decide)⟩

/-- **C10**: answer selection rewrites only the answers slot at the current
index — the questions list and every other in-range answers slot keep their
values, the current slot holds the selected option, and a second recording at
the same index (before the delayed advance fires) overwrites the first. -/
theorem answerSelect_frame (s : AppState) (a b : String) (j : Nat)
    (hcur : s.currentQuestionIndex < s.userAnswers.length)
    (hj : j ≠ s.currentQuestionIndex) :
    (handleAnswerSelect a s).questions = s.questions ∧
    (handleAnswerSelect a s).userAnswers[j]? = s.userAnswers[j]? ∧
    (handleAnswerSelect a s).userAnswers[s.currentQuestionIndex]? =
      some (some a) ∧
    (recordAnswer b (recordAnswer a s)).userAnswers[s.currentQuestionIndex]? =
      some (some b) := by
  have hua : (handleAnswerSelect a s).userAnswers =
      jsArraySet s.userAnswers s.currentQuestionIndex a := by
    simp only [handleAnswerSelect, advanceOrFinish, recordAnswer]
    split <;> rfl
  have hqs : (handleAnswerSelect a s).questions = s.questions := by
    simp only [handleAnswerSelect, advanceOrFinish, recordAnswer]
    split <;> rfl
  have hset : jsArraySet s.userAnswers s.currentQuestionIndex a =
      s.userAnswers.set s.currentQuestionIndex (some a) := by
    simp [jsArraySet, if_pos hcur]
  refine ⟨hqs, ?_, ?_, ?_⟩
  · rw [hua, hset]
    exact List.getElem?_set_ne (fun hco => hj hco.symm)
  · rw [hua, hset]
    exact List.getElem?_set_self hcur
  · have hrw : (recordAnswer b (recordAnswer a s)).userAnswers =
        jsArraySet (s.userAnswers.set s.currentQuestionIndex (some a))
          s.currentQuestionIndex b := by
      simp [recordAnswer, hset]
    have hcur2 : s.currentQuestionIndex <
        (s.userAnswers.set s.currentQuestionIndex (some a)).length := by
      simpa using hcur
    rw [hrw]
    simp only [jsArraySet]
    rw [if_pos hcur2]
    exact List.getElem?_set_self hcur2

/-- The C10 statement exercised on `demoActiveState` (current index 0, frame
slot 1): answering "b" then "c" leaves slot 1 untouched and slot 0 holding
"c". -/
theorem answerSelect_frame_witness :
    demoActiveState.currentQuestionIndex < demoActiveState.userAnswers.length ∧
    (1 : Nat) ≠ demoActiveState.currentQuestionIndex ∧
    ((handleAnswerSelect "b" demoActiveState).questions =
        demoActiveState.questions ∧
      (handleAnswerSelect "b" demoActiveState).userAnswers[1]? =
        demoActiveState.userAnswers[1]? ∧
      (handleAnswerSelect "b"
          demoActiveState).userAnswers[demoActiveState.currentQuestionIndex]? =
        some (some "b") ∧
      (recordAnswer "c" (recordAnswer "b"
          demoActiveState)).userAnswers[demoActiveState.currentQuestionIndex]? =
        some (some "c")) :=
  ⟨by decide, by decide,
    answerSelect_frame demoActiveState "b" "c" 1 (by decide) (by decide)⟩

/-!
## File selection (C6)

`handleFileChange` rejects a file that is neither markdown-typed nor
`.md`-named — but the rejection branch executes `setFile(null)`, so when a
valid file had been selected earlier, rejecting a later invalid pick *does*
change the state (the stored file is cleared).
-/

/-- The C6 claim as stated is false on the code: rejecting an invalid file
from a state that already holds a valid selection clears `file`, a state
change. -/
theorem fileChange_reject_changes_state :
    (handleFileChange (some ⟨"cat.png", "image/png"⟩)
        { initialState with file := some ⟨"notes.md", "text/markdown"⟩ }).1 ≠
      { initialState with file := some ⟨"notes.md", "text/markdown"⟩ } := by
  decide

/-- **C6 (amended)**: an invalid selection (name not ending in `.md` and type
not markdown) raises the alert and clears the stored file, leaving every other
cell unchanged; a selection with a `.md` name or markdown MIME type is stored
as the selected file, with no alert. -/
theorem fileChange_spec (s : AppState) (f : JsFile) :
    ((f.type ≠ "text/markdown" ∧ endsWithL f.name ".md" = false) →
      (handleFileChange (some f) s).1 = { s with file := none } ∧
      (handleFileChange (some f) s).2.isSome) ∧
    ((f.type = "text/markdown" ∨ endsWithL f.name ".md" = true) →
      (handleFileChange (some f) s).1 = { s with file := some f } ∧
      (handleFileChange (some f) s).2 = none) := by
  constructor
  · rintro ⟨h1, h2⟩
    have hcond : (f.type == "text/markdown" || endsWithL f.name ".md") = false := by
      simp [h2, beq_eq_false_iff_ne.mpr h1]
    simp [handleFileChange, hcond]
  · intro hvalid
    have hcond : (f.type == "text/markdown" || endsWithL f.name ".md") = true := by
      rcases hvalid with hv | hv <;> simp [hv]
    simp [handleFileChange, hcond]

/-- The C6 amended statement exercised on both branches: an invalid `.png`
pick is rejected with the file cleared, a markdown-typed pick is stored. -/
theorem fileChange_spec_witness :
    (((JsFile.mk "cat.png" "image/png").type ≠ "text/markdown" ∧
        endsWithL (JsFile.mk "cat.png" "image/png").name ".md" = false) ∧
      (handleFileChange (some (JsFile.mk "cat.png" "image/png")) initialState).1 =
        { initialState with file := none } ∧
      (handleFileChange (some (JsFile.mk "cat.png" "image/png"))
          initialState).2.isSome) ∧
    (((JsFile.mk "notes.md" "text/markdown").type = "text/markdown" ∨
        endsWithL (JsFile.mk "notes.md" "text/markdown").name ".md" = true) ∧
      (handleFileChange (some (JsFile.mk "notes.md" "text/markdown"))
          initialState).1 =
        { initialState with file := some (JsFile.mk "notes.md" "text/markdown") } ∧
      (handleFileChange (some (JsFile.mk "notes.md" "text/markdown"))
          initialState).2 = none) :=
  ⟨⟨by decide,
      (fileChange_spec initialState (JsFile.mk "cat.png" "image/png")).1 (by decide)⟩,
    ⟨by decide,
      (fileChange_spec initialState (JsFile.mk "notes.md" "text/markdown")).2
        (by decide)⟩⟩

/-!
## Markdown renderers (StoryRenderer, QuestionRenderer)

The inline substitutions are JavaScript regex replaces of the shape
`/open(.*?)close/g` — lazy inner match, and `.` does not match a newline.
Scanning left to right: wherever the open delimiter matches and the close
delimiter occurs later with no intervening newline, the shortest such span is
replaced and scanning resumes after it; otherwise the scanner advances one
character.  `replaceSpansAux` implements exactly this; its fuel is bounded by
the input length because every step consumes at least one input character.
-/

/-- Split off the lazy inner match: `scanClose cls s = some (inner, rest)`
when `s = inner ++ cls ++ rest` for the shortest newline-free `inner`, `none`
when no such split exists. -/
def scanClose (cls : List Char) : List Char → Option (List Char × List Char)
  | [] => none
  | c :: rest =>
    if startsWithL cls (c :: rest) then some ([], (c :: rest).drop cls.length)
    else if c = '\n' then none
    else
      match scanClose cls rest with
      | some (inner, rest') => some (c :: inner, rest')
      | none => none

/-- One global-replace pass of `/opn(.*?)cls/` (lazy, newline-free inner):
each matched span `opn ++ inner ++ cls` becomes `pre ++ inner ++ post`. -/
def replaceSpansAux (opn cls pre post : List Char) : Nat → List Char → List Char
  | 0, s => s
  | _ + 1, [] => []
  | fuel + 1, c :: rest =>
    if startsWithL opn (c :: rest) then
      match scanClose cls ((c :: rest).drop opn.length) with
      | some (inner, rest') =>
        pre ++ inner ++ post ++ replaceSpansAux opn cls pre post fuel rest'
      | none => c :: replaceSpansAux opn cls pre post fuel rest
    else c :: replaceSpansAux opn cls pre post fuel rest

/-- `s.replace(/opn(.*?)cls/g, "pre$1post")`. -/
def replaceSpans (opn cls pre post s : String) : String :=
  ⟨replaceSpansAux opn.data cls.data pre.data post.data s.data.length s.data⟩

/-- `s.replace(/\n/g, "<br />")`. -/
def replaceNewlines (s : String) : String :=
  ⟨s.data.flatMap (fun c => if c = '\n' then "<br />".data else [c])⟩

/-- `processInline` of `StoryRenderer` (src/index.tsx:34-39): `**bold**`,
then `__bold__`, then `*italic*`, then `_italic_`, then newlines to
`<br />`, in that order. -/
def processInline (text : String) : String :=
  replaceNewlines
    (replaceSpans "_" "_" "<em>" "</em>"
      (replaceSpans "*" "*" "<em>" "</em>"
        (replaceSpans "__" "__" "<strong>" "</strong>"
          (replaceSpans "**" "**" "<strong>" "</strong>" text))))

/-- `paragraph.trim()`: strip leading and trailing whitespace. -/
def jsTrim (s : String) : String :=
  ⟨((s.data.dropWhile Char.isWhitespace).reverse.dropWhile
      Char.isWhitespace).reverse⟩

/-- The per-paragraph body of `StoryRenderer` (src/index.tsx:31-46): empty
blocks vanish, a leading `# `/`## `/`### ` selects the heading level, any
other block becomes a paragraph; the remainder goes through `processInline`. -/
def renderParagraph (paragraph : String) : String :=
  if jsTrim paragraph = "" then ""
  else if startsWithL "# ".data paragraph.data then
    "<h1>" ++ processInline ⟨paragraph.data.drop 2⟩ ++ "</h1>"
  else if startsWithL "## ".data paragraph.data then
    "<h2>" ++ processInline ⟨paragraph.data.drop 3⟩ ++ "</h2>"
  else if startsWithL "### ".data paragraph.data then
    "<h3>" ++ processInline ⟨paragraph.data.drop 4⟩ ++ "</h3>"
  else "<p>" ++ processInline paragraph ++ "</p>"

/-- JavaScript `s.split(sep)` for a non-empty separator: cut at each leftmost
non-overlapping occurrence.  `acc` holds the current piece reversed. -/
def splitSepAux (sep : List Char) : Nat → List Char → List Char → List (List Char)
  | 0, acc, s => [acc.reverse ++ s]
  | _ + 1, acc, [] => [acc.reverse]
  | fuel + 1, acc, c :: rest =>
    if startsWithL sep (c :: rest) then
      acc.reverse :: splitSepAux sep fuel [] ((c :: rest).drop sep.length)
    else
      splitSepAux sep fuel (c :: acc) rest

/-- `markdownContent.split(sep)`. -/
def splitSep (sep s : String) : List String :=
  (splitSepAux sep.data s.data.length [] s.data).map String.mk

/-- The blocks of `storyHtml` (src/index.tsx:28-48): split on blank lines and
render each paragraph. -/
def storyBlocks (markdownContent : String) : List String :=
  (splitSep "\n\n" markdownContent).map renderParagraph

/-- `storyHtml` of `StoryRenderer`: the rendered blocks joined with `''`. -/
def storyHtml (markdownContent : String) : String :=
  String.join (storyBlocks markdownContent)

/-- `QuestionRenderer` (src/index.tsx:55-58): every
`<underline>...</underline>` span becomes `<u>...</u>`. -/
def renderQuestionSentence (sentence : String) : String :=
  replaceSpans "<underline>" "</underline>" "<u>" "</u>" sentence

/-- **C7**: on `"# Title\n\nSome **bold** text"` the story renderer produces
exactly two blocks — a heading-1 containing "Title" and a paragraph with
"bold" wrapped in `<strong>` — and joins them; further instances show the
`##`/`###` classification and that bold is applied before italic before the
newline substitution. -/
theorem storyRenderer_spec :
    storyBlocks "# Title\n\nSome **bold** text" =
      ["<h1>Title</h1>", "<p>Some <strong>bold</strong> text</p>"] ∧
    storyHtml "# Title\n\nSome **bold** text" =
      "<h1>Title</h1><p>Some <strong>bold</strong> text</p>" ∧
    renderParagraph "## Title" = "<h2>Title</h2>" ∧
    renderParagraph "### Title" = "<h3>Title</h3>" ∧
    processInline "**_x_**\ny" = "<strong><em>x</em></strong><br />y" := by
  refine ⟨?_, ?_, ?_, ?_, ?_⟩ <;> decide

theorem replaceSpansAux_id (os cls pre post : List Char) :
    ∀ (fuel : Nat) (s : List Char), (∀ c ∈ s, c ≠ '<') →
      replaceSpansAux ('<' :: os) cls pre post fuel s = s := by
  intro fuel
  induction fuel with
  | zero => intro s _; rfl
  | succ fuel ih =>
    intro s hs
    cases s with
    | nil => rfl
    | cons c rest =>
      have hc : ('<' == c) = false :=
        beq_eq_false_iff_ne.mpr (fun h => hs c (List.mem_cons_self c rest) h.symm)
      simp only [replaceSpansAux, startsWithL, hc, Bool.false_and, Bool.cond_false,
        if_false]
      exact congrArg (c :: ·) (ih rest (fun d hd => hs d (List.mem_cons_of_mem c hd)))

/-- **C8**: the question renderer converts each `<underline>...</underline>`
span to `<u>...</u>` — verbatim on the spec's example — and leaves any
sentence without the delimiter's opening character unchanged. -/
theorem questionRenderer_spec :
    renderQuestionSentence "A <underline>word</underline> here" =
      "A <u>word</u> here" ∧
    ∀ sentence : String, (∀ c ∈ sentence.data, c ≠ '<') →
      renderQuestionSentence sentence = sentence := by
  constructor
  · decide
  · intro sentence hs
    have h : "<underline>".data = '<' :: "underline>".data := rfl
    show (⟨replaceSpansAux "<underline>".data "</underline>".data "<u>".data
        "</u>".data sentence.data.length sentence.data⟩ : String) = sentence
    rw [h, replaceSpansAux_id _ _ _ _ _ _ hs]

/-- The C8 pass-through clause exercised on a delimiter-free sentence. -/
theorem questionRenderer_spec_witness :
    renderQuestionSentence "No markers here." = "No markers here." :=
  questionRenderer_spec.2 "No markers here." (by decide)
